import Mathlib

/-!
Shallow embedding of the notification core of the barrett-bot repository
(Telegram crypto price bot).  The definitions below are translated from the
TypeScript source: `src/bot.ts` (class `BarrettBot`),
`src/services/PriceService.ts` (classes `PriceService` and `WalletService`)
and `src/handlers/CommandHandlers.ts`.  JS numbers are modelled as `ℚ`,
timestamps (`Date.now()` milliseconds) as `ℤ`, JS `Map`/`Set` as association
lists / lists, and network I/O as explicit outcome parameters.  Message
transport (`bot.sendMessage`) is modelled as succeeding inside the pure
evaluation functions; its failure path is modelled separately by
`dispatchMessages`, mirroring the dispatch loop of `processPriceUpdate`.
-/

namespace Barrett

/-- Catalog entry, from `PriceService.SUPPORTED_CRYPTOS` (fields `id`,
`symbol`, `name`; the `emoji` field is display-only and omitted). -/
structure CryptoCurrency where
  id : String
  symbol : String
  name : String
deriving DecidableEq, Repr

/-- The static catalog `PriceService.SUPPORTED_CRYPTOS`. -/
def SUPPORTED_CRYPTOS : List CryptoCurrency :=
  [⟨"ethereum", "ETH", "Ethereum"⟩,
   ⟨"bitcoin", "BTC", "Bitcoin"⟩,
   ⟨"binancecoin", "BNB", "BNB"⟩,
   ⟨"cardano", "ADA", "Cardano"⟩,
   ⟨"solana", "SOL", "Solana"⟩,
   ⟨"chainlink", "LINK", "Chainlink"⟩,
   ⟨"polygon", "MATIC", "Polygon"⟩,
   ⟨"dogecoin", "DOGE", "Dogecoin"⟩,
   ⟨"shiba-inu", "SHIB", "Shiba Inu"⟩,
   ⟨"avalanche-2", "AVAX", "Avalanche"⟩]

/-- ASCII lower-casing of one character, the effect of JS `toLowerCase` on
the ASCII catalog symbols and command input this code compares. -/
def lowerChar (c : Char) : Char :=
  match c with
  | 'A' => 'a' | 'B' => 'b' | 'C' => 'c' | 'D' => 'd' | 'E' => 'e' | 'F' => 'f'
  | 'G' => 'g' | 'H' => 'h' | 'I' => 'i' | 'J' => 'j' | 'K' => 'k' | 'L' => 'l'
  | 'M' => 'm' | 'N' => 'n' | 'O' => 'o' | 'P' => 'p' | 'Q' => 'q' | 'R' => 'r'
  | 'S' => 's' | 'T' => 't' | 'U' => 'u' | 'V' => 'v' | 'W' => 'w' | 'X' => 'x'
  | 'Y' => 'y' | 'Z' => 'z'
  | other => other

/-- JS `String.prototype.toLowerCase` on ASCII strings. -/
def strLower (s : String) : String := ⟨s.data.map lowerChar⟩

/-- ASCII upper-casing of one character (JS `toUpperCase`). -/
def upperChar (c : Char) : Char :=
  match c with
  | 'a' => 'A' | 'b' => 'B' | 'c' => 'C' | 'd' => 'D' | 'e' => 'E' | 'f' => 'F'
  | 'g' => 'G' | 'h' => 'H' | 'i' => 'I' | 'j' => 'J' | 'k' => 'K' | 'l' => 'L'
  | 'm' => 'M' | 'n' => 'N' | 'o' => 'O' | 'p' => 'P' | 'q' => 'Q' | 'r' => 'R'
  | 's' => 'S' | 't' => 'T' | 'u' => 'U' | 'v' => 'V' | 'w' => 'W' | 'x' => 'X'
  | 'y' => 'Y' | 'z' => 'Z'
  | other => other

/-- JS `String.prototype.toUpperCase` on ASCII strings. -/
def strUpper (s : String) : String := ⟨s.data.map upperChar⟩

/-- `PriceService.findCryptoBySymbol`: case-insensitive symbol lookup
(`c.symbol.toLowerCase() === symbol.toLowerCase()`). -/
def findCryptoBySymbol (symbol : String) : Option CryptoCurrency :=
  SUPPORTED_CRYPTOS.find? (fun c => strLower c.symbol = strLower symbol)

/-- `PriceService.findCryptoById`: id lookup in the catalog. -/
def findCryptoById (id : String) : Option CryptoCurrency :=
  SUPPORTED_CRYPTOS.find? (fun c => c.id = id)

/-- One entry of the CoinGecko `/simple/price` response body
(`response.data[cryptoId]`).  Fields that the source guards with `|| 0`
are `Option`s here. -/
structure CoinData where
  usd : ℚ
  eur : ℚ
  usd24hChange : Option ℚ
  eur24hChange : Option ℚ
  usd7dChange : Option ℚ
  eur7dChange : Option ℚ
  usdMarketCap : Option ℚ
  eurMarketCap : Option ℚ
  usd24hVol : Option ℚ
  eur24hVol : Option ℚ
deriving DecidableEq, Repr

/-- The `PriceData` interface (the `timestamp : Date` field is omitted:
it is display-only and never read by the evaluators). -/
structure PriceData where
  symbol : String
  name : String
  priceUsd : ℚ
  priceEur : ℚ
  change24hUsd : ℚ
  change24hEur : ℚ
  change7dUsd : ℚ
  change7dEur : ℚ
  marketCapUsd : ℚ
  marketCapEur : ℚ
  volume24hUsd : ℚ
  volume24hEur : ℚ
deriving DecidableEq, Repr

/-- Body of the push in `PriceService.getCryptoPrices`: builds a `PriceData`
from one response entry, defaulting missing change/cap/vol fields to 0
(`data.usd_24h_change || 0` etc.). -/
def toPriceData (cryptoId : String) (data : CoinData) : PriceData :=
  let crypto := SUPPORTED_CRYPTOS.find? (fun c => c.id = cryptoId)
  { symbol := (crypto.map (fun c => c.symbol)).getD (strUpper cryptoId)
    name := (crypto.map (fun c => c.name)).getD cryptoId
    priceUsd := data.usd
    priceEur := data.eur
    change24hUsd := data.usd24hChange.getD 0
    change24hEur := data.eur24hChange.getD 0
    change7dUsd := data.usd7dChange.getD 0
    change7dEur := data.eur7dChange.getD 0
    marketCapUsd := data.usdMarketCap.getD 0
    marketCapEur := data.eurMarketCap.getD 0
    volume24hUsd := data.usd24hVol.getD 0
    volume24hEur := data.eur24hVol.getD 0 }

/-- `PriceService.getCryptoPrices`: one batch request for all ids; the loop
`for (const cryptoId of cryptoIds) { const data = response.data[cryptoId];
if (data) {...push...} }` keeps an id only when the response has data for
it, so an asset missing from the response is silently omitted.  The
provider response body is the `response` parameter. -/
def getCryptoPrices (cryptoIds : List String) (response : String → Option CoinData) :
    List PriceData :=
  match cryptoIds with
  | [] => []
  | cryptoId :: rest =>
    match response cryptoId with
    | some data => toPriceData cryptoId data :: getCryptoPrices rest response
    | none => getCryptoPrices rest response

/-- The `currency` field of `UserSettings` (`'usd' | 'eur'`). -/
inductive Currency where
  | usd
  | eur
deriving DecidableEq, Repr

/-- The `updateInterval` field of `UserSettings`
(`'15min' | '30min' | '1h' | '2h'`). -/
inductive UpdateInterval where
  | min15
  | min30
  | h1
  | h2
deriving DecidableEq, Repr

/-- The `UserSettings` interface. -/
structure UserSettings where
  currency : Currency
  trackedCryptos : List String
  updateInterval : UpdateInterval
  emergencyAlerts : Bool
  emergencyThreshold : ℚ
deriving DecidableEq, Repr

/-- The default settings created by `BarrettBot.getUserSettings` for an
unknown chat. -/
def defaultSettings : UserSettings :=
  { currency := .usd
    trackedCryptos := ["ethereum"]
    updateInterval := .h1
    emergencyAlerts := true
    emergencyThreshold := 10 }

/-- The `alertType` string chosen in `BarrettBot.checkEmergencyAlerts`
(`'CRASH' | 'PUMP' | 'EXTREME VOLATILITY'`). -/
inductive EmergencyKind where
  | crash
  | pump
  | extremeVolatility
deriving DecidableEq, Repr

/-- The `if / else if / else if` chain of `checkEmergencyAlerts`
(src/bot.ts): crash when `change24h <= -settings.emergencyThreshold`,
otherwise pump when `change24h >= settings.emergencyThreshold * 1.5`,
otherwise extreme volatility when `Math.abs(change24h) >= 20`,
otherwise no alert. -/
def emergencyCondition (threshold change24h : ℚ) : Option EmergencyKind :=
  if change24h ≤ -threshold then some .crash
  else if change24h ≥ threshold * (3 / 2) then some .pump
  else if |change24h| ≥ 20 then some .extremeVolatility
  else none

/-- Key of the `recentEmergencyAlerts` map.  The source key is the string
`chatId + "-" + crypto.id + "-" + alertType`; since chat ids are numbers and
catalog ids never start with a digit, that encoding is injective on the
reachable keys, so the key is modelled as the triple itself. -/
structure EmergencyKey where
  chatId : ℤ
  cryptoId : String
  kind : EmergencyKind
deriving DecidableEq, Repr

/-- The `recentEmergencyAlerts : Map<string, number>` of `BarrettBot`:
key to last-fired timestamp (ms). -/
def EmergencyState : Type := List (EmergencyKey × ℤ)

/-- `Map.get` on the emergency state. -/
def EmergencyState.lookup (st : EmergencyState) (k : EmergencyKey) : Option ℤ :=
  (List.find? (fun e => e.1 = k) st).map (fun e => e.2)

/-- `Map.set` on the emergency state (replaces an existing binding). -/
def EmergencyState.set (st : EmergencyState) (k : EmergencyKey) (t : ℤ) :
    EmergencyState :=
  (k, t) :: List.filter (fun e => ¬ e.1 = k) st

/-- A notification intent emitted by `checkEmergencyAlerts`: the discriminated
payload of the alert message (chat, asset, condition kind, the 24h change and
current price in the subscriber's currency). -/
structure EmergencyIntent where
  chatId : ℤ
  cryptoId : String
  kind : EmergencyKind
  change24h : ℚ
  currentPrice : ℚ
deriving DecidableEq, Repr

/-- The ternary `settings.currency === 'usd' ? priceData.change24hUsd :
priceData.change24hEur`. -/
def changeFor (settings : UserSettings) (priceData : PriceData) : ℚ :=
  match settings.currency with
  | .usd => priceData.change24hUsd
  | .eur => priceData.change24hEur

/-- The ternary `settings.currency === 'usd' ? priceData.priceUsd :
priceData.priceEur`. -/
def priceFor (settings : UserSettings) (priceData : PriceData) : ℚ :=
  match settings.currency with
  | .usd => priceData.priceUsd
  | .eur => priceData.priceEur

/-- Per-asset body of the inner loop of `BarrettBot.checkEmergencyAlerts`
for one subscriber and one `PriceData`: resolve the catalog entry from the
quote's symbol and require it to be tracked; select the 24h change and the
price in the subscriber's currency; run the condition chain; then apply the
deduplication check `if (lastAlert && (now - lastAlert) < 3600000) continue`
(note the JS truthiness test: a stored timestamp of `0` does not suppress);
on emission record `recentEmergencyAlerts.set(alertKey, now)`.  Returns the
emitted intent (if any) and the updated dedup state.  Transport success is
assumed here; the failure path of the dispatch loops is modelled by
`dispatchMessages`. -/
def checkEmergencyForAsset (chatId : ℤ) (settings : UserSettings)
    (priceData : PriceData) (st : EmergencyState) (now : ℤ) :
    Option EmergencyIntent × EmergencyState :=
  match findCryptoBySymbol priceData.symbol with
  | none => (none, st)
  | some crypto =>
    if crypto.id ∈ settings.trackedCryptos then
      let change24h := changeFor settings priceData
      let currentPrice := priceFor settings priceData
      match emergencyCondition settings.emergencyThreshold change24h with
      | none => (none, st)
      | some kind =>
        let key : EmergencyKey := ⟨chatId, crypto.id, kind⟩
        match st.lookup key with
        | some lastAlert =>
          if lastAlert ≠ 0 ∧ now - lastAlert < 3600000 then (none, st)
          else (some ⟨chatId, crypto.id, kind, change24h, currentPrice⟩,
                st.set key now)
        | none =>
          (some ⟨chatId, crypto.id, kind, change24h, currentPrice⟩,
           st.set key now)
    else (none, st)

/-- The per-subscriber half of `checkEmergencyAlerts`: skip the subscriber
entirely unless `settings.emergencyAlerts`, otherwise fold the per-asset
check over the fetched quotes, threading the dedup state. -/
def checkEmergencyForChat (chatId : ℤ) (settings : UserSettings)
    (pricesData : List PriceData) (st : EmergencyState) (now : ℤ) :
    List EmergencyIntent × EmergencyState :=
  if settings.emergencyAlerts then
    pricesData.foldl
      (fun acc priceData =>
        match checkEmergencyForAsset chatId settings priceData acc.2 now with
        | (some intent, st') => (acc.1 ++ [intent], st')
        | (none, st') => (acc.1, st'))
      ([], st)
  else ([], st)

/-- The `type` field of an `Alert` (`'above' | 'below'`). -/
inductive AlertDirection where
  | above
  | below
deriving DecidableEq, Repr

/-- The `Alert` interface: a one-shot threshold alert. -/
structure Alert where
  chatId : ℤ
  cryptoId : String
  type : AlertDirection
  price : ℚ
  active : Bool
deriving DecidableEq, Repr

/-- The quote lookup in `checkPriceAlerts`:
`pricesData.find(p => findCryptoBySymbol(p.symbol)?.id === alert.cryptoId)`
(the optional-chaining comparison is false when the symbol is not in the
catalog). -/
def findQuoteForAlert (pricesData : List PriceData) (a : Alert) :
    Option PriceData :=
  pricesData.find? (fun p =>
    match findCryptoBySymbol p.symbol with
    | some crypto => crypto.id = a.cryptoId
    | none => false)

/-- The `shouldTrigger` computation of `checkPriceAlerts` for one alert:
the alert must be active, a matching quote must exist in this tick's data,
and `type === 'above' && currentPrice >= alert.price` or
`type === 'below' && currentPrice <= alert.price` (price in the
subscriber's currency). -/
def alertShouldTrigger (settings : UserSettings) (pricesData : List PriceData)
    (a : Alert) : Bool :=
  a.active &&
    match findQuoteForAlert pricesData a with
    | none => false
    | some p =>
      let currentPrice := match settings.currency with
        | .usd => p.priceUsd
        | .eur => p.priceEur
      match a.type with
      | .above => decide (currentPrice ≥ a.price)
      | .below => decide (currentPrice ≤ a.price)

/-- Inner loop of `BarrettBot.checkPriceAlerts` for one subscriber:
iterates the alert array downward (`for (let i = userAlerts.length - 1;
i >= 0; i--)`), and for each alert whose trigger condition holds sends the
message and, when the send succeeds, splices the alert out of the in-memory
array (a failed send leaves the alert in place, retried next tick).
Modelled by a right fold, which processes the last element first exactly as
the downward loop does.  Returns (remaining alerts, fired alerts in send
order).  `sendOk` is the transport outcome per alert. -/
def checkPriceAlertsUser (settings : UserSettings) (pricesData : List PriceData)
    (sendOk : Alert → Bool) (userAlerts : List Alert) :
    List Alert × List Alert :=
  userAlerts.foldr
    (fun a acc =>
      if alertShouldTrigger settings pricesData a then
        if sendOk a then (acc.1, acc.2 ++ [a])
        else (a :: acc.1, acc.2)
      else (a :: acc.1, acc.2))
    ([], [])

/-- `BarrettBot.getUserSettings` without the persistence write-through:
the in-memory map, defaulting an unknown chat to `defaultSettings`. -/
def getUserSettings (userSettings : List (ℤ × UserSettings)) (chatId : ℤ) :
    UserSettings :=
  (userSettings.lookup chatId).getD defaultSettings

/-- The target-chat selection of `processPriceUpdate`: subscribers whose
configured `updateInterval` equals this tick's cadence. -/
def computeTargetChats (subscribedChats : List ℤ)
    (userSettings : List (ℤ × UserSettings)) (intervalType : UpdateInterval) :
    List ℤ :=
  subscribedChats.filter
    (fun chatId => (getUserSettings userSettings chatId).updateInterval = intervalType)

/-- `Set.add` on a JS `Set` modelled as an insertion-ordered duplicate-free
list. -/
def insertUnique (l : List String) (x : String) : List String :=
  if x ∈ l then l else l ++ [x]

/-- The `allTrackedCryptos` set of `processPriceUpdate`: every tracked
crypto of every target chat, then the `cryptoId` of every active alert of
every subscriber (on any cadence). -/
def computeAllTracked (targetChats : List ℤ)
    (userSettings : List (ℤ × UserSettings))
    (alerts : List (ℤ × List Alert)) : List String :=
  let fromTracked :=
    targetChats.foldl
      (fun acc chatId =>
        (getUserSettings userSettings chatId).trackedCryptos.foldl insertUnique acc)
      []
  alerts.foldl
    (fun acc entry =>
      entry.2.foldl
        (fun acc a => if a.active then insertUnique acc a.cryptoId else acc)
        acc)
    fromTracked

/-- The per-chat message content built in `processPriceUpdate`:
`pricesData.filter(p => settings.trackedCryptos.includes(
findCryptoBySymbol(p.symbol)?.id || ''))`. -/
def computeUserPricesData (settings : UserSettings)
    (pricesData : List PriceData) : List PriceData :=
  pricesData.filter
    (fun p =>
      ((findCryptoBySymbol p.symbol).map (fun c => c.id)).getD "" ∈
        settings.trackedCryptos)

/-- The whole asset-selection and fetch step of `processPriceUpdate` for one
cadence tick: one `getCryptoPrices` batch call on the deduplicated asset
union, then one personalized quote list per target chat. -/
def processPriceUpdateFetch (subscribedChats : List ℤ)
    (userSettings : List (ℤ × UserSettings))
    (alerts : List (ℤ × List Alert)) (intervalType : UpdateInterval)
    (response : String → Option CoinData) :
    List String × List PriceData × List (ℤ × List PriceData) :=
  let targetChats := computeTargetChats subscribedChats userSettings intervalType
  let allTrackedCryptos := computeAllTracked targetChats userSettings alerts
  let pricesData := getCryptoPrices allTrackedCryptos response
  (allTrackedCryptos, pricesData,
   targetChats.map (fun chatId =>
     (chatId,
      computeUserPricesData (getUserSettings userSettings chatId) pricesData)))

/-- Outcome of one `bot.sendMessage` call, as seen by the `catch` blocks of
`processPriceUpdate` and `checkEmergencyAlerts`: success, or a thrown error
that is either the recipient-unreachable class (chat blocked/deleted) or a
transient transport failure.  The source `catch` does not inspect the error. -/
inductive SendResult where
  | delivered
  | unreachable
  | transientFailure
deriving DecidableEq, Repr

/-- The dispatch loop at the end of `processPriceUpdate`: for each prepared
message, send it; on any thrown error the chat is deleted from
`subscribedChats` (`catch (error) { this.subscribedChats.delete(chatId) }`).
Set deletion is modelled as filtering the chat out. -/
def dispatchMessages (chats : List ℤ) (send : ℤ → SendResult)
    (subscribedChats : List ℤ) : List ℤ :=
  chats.foldl
    (fun subs chatId =>
      match send chatId with
      | .delivered => subs
      | _ => subs.filter (fun c => ¬ c = chatId))
    subscribedChats

/-- Outcome of one provider in a balance-resolution chain of
`WalletService`: the provider call threw (after `rateLimitedRequest`
exhausted its retries), returned a response the guard rejects
(e.g. Etherscan `status !== '1'`, BlockCypher `balance === undefined`), or
returned a usable balance. -/
inductive ProviderResult where
  | throws
  | unusable
  | usable (balance : ℚ)
deriving DecidableEq, Repr

/-- Generic provider-chain iteration: try each provider in order, return the
first usable balance, `none` when every provider is exhausted.  This is the
loop of `WalletService.getSolanaBalanceWithRetry` over its `rpcEndpoints`
list (each failure logs and continues to the next endpoint). -/
def resolveProviderChain (providers : List ProviderResult) : Option ℚ :=
  match providers with
  | [] => none
  | .usable b :: _ => some b
  | .throws :: rest => resolveProviderChain rest
  | .unusable :: rest => resolveProviderChain rest

/-- `WalletService.getEthereumBalanceWithRetry`: three sequential
`try`-blocks (Etherscan, then BlockCypher, then Blockchair); a thrown error
or a rejected response body falls through to the next block; `null` is
returned only after the last block fails.  The balance of the first usable
response is returned (`addPriceData` always returns a `WalletBalance`, even
when the price lookup fails). -/
def getEthereumBalanceWithRetry (etherscan blockcypher blockchair : ProviderResult) :
    Option ℚ :=
  match etherscan with
  | .usable b => some b
  | _ =>
    match blockcypher with
    | .usable b => some b
    | _ =>
      match blockchair with
      | .usable b => some b
      | _ => none

/-- `WalletService.getSolanaBalanceWithRetry`: the three-endpoint RPC loop. -/
def getSolanaBalanceWithRetry (rpc1 rpc2 rpc3 : ProviderResult) : Option ℚ :=
  resolveProviderChain [rpc1, rpc2, rpc3]

/-- Outcome of one upstream HTTP attempt, as seen by the retry loops: a
successful response, an HTTP error response carrying a status and possibly a
`retry-after` header (in seconds), or a non-HTTP error (network failure,
timeout). -/
inductive AttemptResult (α : Type) where
  | ok (v : α)
  | httpError (status : ℕ) (retryAfter : Option ℕ)
  | otherError
deriving DecidableEq, Repr

/-- Loop body of `PriceService.makeRequestWithRetry` from attempt number
`attempt` on: a 429 response with `attempt < maxRetries` sleeps
`retryAfter * 1000` ms when the header is present, else `2^attempt * 1000`
ms, and retries; every other error (including 430 and 5xx) is rethrown at
once.  Returns the result and the list of backoff delays slept (ms).  The
`attempts` parameter gives the outcome of the i-th HTTP attempt. -/
def makeRequestWithRetryGo {α : Type} (attempts : ℕ → AttemptResult α)
    (maxRetries : ℕ) : (remaining : ℕ) → (attempt : ℕ) →
    Except (AttemptResult α) α × List ℕ
  | 0, _ => (.error .otherError, [])
  | remaining + 1, attempt =>
    match attempts attempt with
    | .ok v => (.ok v, [])
    | .httpError status retryAfter =>
      if status = 429 ∧ attempt < maxRetries then
        let delay := match retryAfter with
          | some sec => sec * 1000
          | none => 2 ^ attempt * 1000
        let tail := makeRequestWithRetryGo attempts maxRetries remaining (attempt + 1)
        (tail.1, delay :: tail.2)
      else (.error (.httpError status retryAfter), [])
    | .otherError => (.error .otherError, [])

/-- `PriceService.makeRequestWithRetry` with its default `maxRetries = 3`,
starting at attempt 1.  The loop runs at most `maxRetries` iterations, which
is the structural `remaining` counter of the helper. -/
def makeRequestWithRetry {α : Type} (attempts : ℕ → AttemptResult α) :
    Except (AttemptResult α) α × List ℕ :=
  makeRequestWithRetryGo attempts 3 3 1

/-- Loop body of `WalletService.rateLimitedRequest` from attempt `attempt`
on: status 429, 430 or ≥ 500 with `attempt < maxRetries` sleeps
`2^attempt * 1000` ms and retries (no `retry-after` header is consulted);
any other 4xx is rethrown at once; any other error is rethrown on the last
attempt and otherwise retried after a fixed 1000 ms delay. -/
def rateLimitedRequestGo {α : Type} (attempts : ℕ → AttemptResult α)
    (maxRetries : ℕ) : (remaining : ℕ) → (attempt : ℕ) →
    Except (AttemptResult α) α × List ℕ
  | 0, _ => (.error .otherError, [])
  | remaining + 1, attempt =>
    match attempts attempt with
    | .ok v => (.ok v, [])
    | .httpError status retryAfter =>
      if (status = 429 ∨ status = 430 ∨ (status ≠ 0 ∧ 500 ≤ status)) ∧
          attempt < maxRetries then
        let tail := rateLimitedRequestGo attempts maxRetries remaining (attempt + 1)
        (tail.1, 2 ^ attempt * 1000 :: tail.2)
      else if 400 ≤ status ∧ status < 500 ∧ status ≠ 429 ∧ status ≠ 430 then
        (.error (.httpError status retryAfter), [])
      else if attempt = maxRetries then
        (.error (.httpError status retryAfter), [])
      else
        let tail := rateLimitedRequestGo attempts maxRetries remaining (attempt + 1)
        (tail.1, 1000 :: tail.2)
    | .otherError =>
      if attempt = maxRetries then (.error .otherError, [])
      else
        let tail := rateLimitedRequestGo attempts maxRetries remaining (attempt + 1)
        (tail.1, 1000 :: tail.2)

/-- `WalletService.rateLimitedRequest` with its default `maxRetries = 3`,
starting at attempt 1; the loop runs at most `maxRetries` iterations. -/
def rateLimitedRequest {α : Type} (attempts : ℕ → AttemptResult α) :
    Except (AttemptResult α) α × List ℕ :=
  rateLimitedRequestGo attempts 3 3 1

/-- The `/setalert` handler body of `CommandHandlers.setupAlertsCommands`
after input splitting: look up the symbol in the catalog (unknown symbol
refused), validate the parsed price (`isNaN(price) || price <= 0` refused —
the parse result is modelled as `Option ℚ`, `none` for NaN), refuse when the
subscriber already has 5 alerts (`userAlerts.length >= 5`), otherwise append
the new active alert.  Returns the new alert list, or `none` when the
command was refused. -/
def setalertHandler (chatId : ℤ) (userAlerts : List Alert)
    (cryptoSymbol : String) (parsedType : AlertDirection)
    (parsedPrice : Option ℚ) : Option (List Alert) :=
  match findCryptoBySymbol cryptoSymbol with
  | none => none
  | some crypto =>
    match parsedPrice with
    | none => none
    | some price =>
      if price ≤ 0 then none
      else if userAlerts.length ≥ 5 then none
      else some (userAlerts ++ [⟨chatId, crypto.id, parsedType, price, true⟩])

/-! Helper predicates and sample data used by the verification below. -/

/-- An alert fires on a tick when its trigger condition holds and the alert
message is delivered (only then does the source splice it out). -/
def alertFires (settings : UserSettings) (pricesData : List PriceData)
    (sendOk : Alert → Bool) (a : Alert) : Bool :=
  alertShouldTrigger settings pricesData a && sendOk a

/-- Sample subscriber: default-like settings with threshold 10, usd,
tracking ethereum, emergency alerts on. -/
def sampleSettings : UserSettings :=
  { currency := .usd, trackedCryptos := ["ethereum"], updateInterval := .h1,
    emergencyAlerts := true, emergencyThreshold := 10 }

/-- Sample ETH quote with a −30% 24h change. -/
def quoteEthDown30 : PriceData :=
  { symbol := "ETH", name := "Ethereum", priceUsd := 2000, priceEur := 1800,
    change24hUsd := -30, change24hEur := -30, change7dUsd := 0, change7dEur := 0,
    marketCapUsd := 0, marketCapEur := 0, volume24hUsd := 0, volume24hEur := 0 }

/-- Sample ETH quote with a +22% 24h change. -/
def quoteEthUp22 : PriceData :=
  { symbol := "ETH", name := "Ethereum", priceUsd := 2000, priceEur := 1800,
    change24hUsd := 22, change24hEur := 22, change7dUsd := 0, change7dEur := 0,
    marketCapUsd := 0, marketCapEur := 0, volume24hUsd := 0, volume24hEur := 0 }

/-- Sample ETH quote with a −12% 24h change. -/
def quoteEthDown12 : PriceData :=
  { symbol := "ETH", name := "Ethereum", priceUsd := 1700, priceEur := 1600,
    change24hUsd := -12, change24hEur := -12, change7dUsd := 0, change7dEur := 0,
    marketCapUsd := 0, marketCapEur := 0, volume24hUsd := 0, volume24hEur := 0 }

/-- Sample BTC quote at 60000 usd. -/
def quoteBtc60000 : PriceData :=
  { symbol := "BTC", name := "Bitcoin", priceUsd := 60000, priceEur := 55000,
    change24hUsd := 1, change24hEur := 1, change7dUsd := 0, change7dEur := 0,
    marketCapUsd := 0, marketCapEur := 0, volume24hUsd := 0, volume24hEur := 0 }

/-- Sample one-shot alert: BTC above 50000. -/
def alertBtcAbove : Alert := ⟨1, "bitcoin", .above, 50000, true⟩

/-- Closed form of the per-subscriber threshold-alert loop: the surviving
alerts are exactly those that do not fire, in their original order, and the
fired ones are dispatched from the last array index down (the source loop
iterates `i` downward). -/
theorem checkPriceAlertsUser_eq (settings : UserSettings)
    (pricesData : List PriceData) (sendOk : Alert → Bool)
    (userAlerts : List Alert) :
    checkPriceAlertsUser settings pricesData sendOk userAlerts =
      (userAlerts.filter (fun a => !alertFires settings pricesData sendOk a),
       (userAlerts.filter (alertFires settings pricesData sendOk)).reverse) := by
  induction userAlerts with
  | nil => rfl
  | cons a as ih =>
    have step : checkPriceAlertsUser settings pricesData sendOk (a :: as) =
        (let acc := checkPriceAlertsUser settings pricesData sendOk as
         if alertShouldTrigger settings pricesData a then
           if sendOk a then (acc.1, acc.2 ++ [a]) else (a :: acc.1, acc.2)
         else (a :: acc.1, acc.2)) := rfl
    rw [step, ih]
    by_cases ht : alertShouldTrigger settings pricesData a
    · by_cases hs : sendOk a
      · simp [alertFires, ht, hs, List.filter_cons]
      · simp [alertFires, ht, hs, List.filter_cons]
    · simp [alertFires, ht, List.filter_cons]

/-- C3: a threshold alert that fires on a tick (condition satisfied and the
message delivered) is removed from the in-memory working set within that
same evaluation, so a subsequent evaluation with the same quotes — the price
still past the threshold — produces no second trigger for that alert,
whatever the transport does on the second tick. -/
theorem thresholdAlert_fires_at_most_once (settings : UserSettings)
    (pricesData : List PriceData) (sendOk₁ sendOk₂ : Alert → Bool)
    (userAlerts : List Alert) (a : Alert)
    (hfired : a ∈ (checkPriceAlertsUser settings pricesData sendOk₁ userAlerts).2) :
    a ∉ (checkPriceAlertsUser settings pricesData sendOk₁ userAlerts).1 ∧
    a ∉ (checkPriceAlertsUser settings pricesData sendOk₂
          (checkPriceAlertsUser settings pricesData sendOk₁ userAlerts).1).2 := by
  rw [checkPriceAlertsUser_eq] at hfired
  rw [checkPriceAlertsUser_eq, checkPriceAlertsUser_eq]
  rw [List.mem_reverse, List.mem_filter] at hfired
  refine ⟨fun hmem => ?_, fun hmem => ?_⟩
  · rw [List.mem_filter] at hmem
    rw [hfired.2] at hmem
    simp at hmem
  · rw [List.mem_reverse, List.mem_filter, List.mem_filter] at hmem
    rw [hfired.2] at hmem
    simp at hmem

/-- Witness for C3: the sample BTC-above-50000 alert fires at 60000 and is
gone from both the surviving set and a repeat evaluation's fired set. -/
theorem thresholdAlert_fires_at_most_once_witness :
    alertBtcAbove ∉
      (checkPriceAlertsUser sampleSettings [quoteBtc60000] (fun _ => true)
        [alertBtcAbove]).1 ∧
    alertBtcAbove ∉
      (checkPriceAlertsUser sampleSettings [quoteBtc60000] (fun _ => true)
        (checkPriceAlertsUser sampleSettings [quoteBtc60000] (fun _ => true)
          [alertBtcAbove]).1).2 :=
  thresholdAlert_fires_at_most_once sampleSettings [quoteBtc60000]
    (fun _ => true) (fun _ => true) [alertBtcAbove] alertBtcAbove (by decide)

/-- The batch fetch skips an id that the provider response lacks and keeps
going: removing such an id from the request list does not change the
result. -/
theorem getCryptoPrices_missing_id (response : String → Option CoinData)
    (pre post : List String) (id : String) (hmiss : response id = none) :
    getCryptoPrices (pre ++ id :: post) response =
      getCryptoPrices (pre ++ post) response := by
  induction pre with
  | nil =>
    show getCryptoPrices (id :: post) response = getCryptoPrices post response
    simp [getCryptoPrices, hmiss]
  | cons p ps ih =>
    show getCryptoPrices (p :: (ps ++ id :: post)) response =
      getCryptoPrices (p :: (ps ++ post)) response
    cases h : response p <;> simp [getCryptoPrices, h, ih]

/-- C9: evaluation is total in the face of missing quotes: an active alert
whose asset has no matching quote this tick neither fires nor leaves the
working set, and a requested asset id absent from the provider response is
simply omitted from the returned quote list instead of failing the batch. -/
theorem missingQuote_skipped_not_fatal (response : String → Option CoinData)
    (pre post : List String) (id : String) (hmiss : response id = none)
    (settings : UserSettings) (pricesData : List PriceData)
    (sendOk : Alert → Bool) (alerts : List Alert) (a : Alert)
    (ha : a ∈ alerts) (hq : findQuoteForAlert pricesData a = none) :
    getCryptoPrices (pre ++ id :: post) response =
      getCryptoPrices (pre ++ post) response ∧
    a ∈ (checkPriceAlertsUser settings pricesData sendOk alerts).1 ∧
    a ∉ (checkPriceAlertsUser settings pricesData sendOk alerts).2 := by
  have hnt : alertShouldTrigger settings pricesData a = false := by
    simp [alertShouldTrigger, hq]
  have hnf : alertFires settings pricesData sendOk a = false := by
    simp [alertFires, hnt]
  refine ⟨getCryptoPrices_missing_id response pre post id hmiss, ?_, ?_⟩
  · rw [checkPriceAlertsUser_eq, List.mem_filter]
    exact ⟨ha, by simp [hnf]⟩
  · rw [checkPriceAlertsUser_eq, List.mem_reverse, List.mem_filter]
    rintro ⟨-, hcontra⟩
    rw [hnf] at hcontra
    exact Bool.false_ne_true hcontra

/-- Witness for C9: a response with no data for "bitcoin" yields the same
quotes as not requesting it, and the sample BTC alert with no BTC quote in
the tick is kept and silent. -/
theorem missingQuote_skipped_not_fatal_witness :
    getCryptoPrices (["ethereum"] ++ "bitcoin" :: []) (fun _ => none) =
      getCryptoPrices (["ethereum"] ++ []) (fun _ => none) ∧
    alertBtcAbove ∈
      (checkPriceAlertsUser sampleSettings [quoteEthDown30] (fun _ => true)
        [alertBtcAbove]).1 ∧
    alertBtcAbove ∉
      (checkPriceAlertsUser sampleSettings [quoteEthDown30] (fun _ => true)
        [alertBtcAbove]).2 :=
  missingQuote_skipped_not_fatal (fun _ => none) ["ethereum"] [] "bitcoin" rfl
    sampleSettings [quoteEthDown30] (fun _ => true) [alertBtcAbove]
    alertBtcAbove (by decide) (by decide)

/-- C10: the `/setalert` command refuses a sixth alert: with 5 or more
existing alerts the handler returns a refusal, and any successful creation
starts from at most 4 alerts and ends with at most 5 — so the per-subscriber
list reachable through this command never exceeds 5 entries. -/
theorem setalert_limit_five :
    (∀ (chatId : ℤ) (alerts : List Alert) (sym : String)
       (ty : AlertDirection) (price : Option ℚ), alerts.length ≥ 5 →
       setalertHandler chatId alerts sym ty price = none) ∧
    (∀ (chatId : ℤ) (alerts : List Alert) (sym : String)
       (ty : AlertDirection) (price : Option ℚ) (l : List Alert),
       setalertHandler chatId alerts sym ty price = some l →
       alerts.length ≤ 4 ∧ l.length = alerts.length + 1 ∧ l.length ≤ 5) := by
  constructor
  · intro chatId alerts sym ty price hlen
    unfold setalertHandler
    cases findCryptoBySymbol sym with
    | none => rfl
    | some crypto =>
      cases price with
      | none => rfl
      | some p =>
        simp only
        by_cases hp : p ≤ 0
        · rw [if_pos hp]
        · rw [if_neg hp, if_pos hlen]
  · intro chatId alerts sym ty price l hsome
    unfold setalertHandler at hsome
    cases hfind : findCryptoBySymbol sym with
    | none => rw [hfind] at hsome; exact absurd hsome (by simp)
    | some crypto =>
      rw [hfind] at hsome
      cases price with
      | none => exact absurd hsome (by simp)
      | some p =>
        simp only at hsome
        by_cases hp : p ≤ 0
        · rw [if_pos hp] at hsome; exact absurd hsome (by simp)
        · rw [if_neg hp] at hsome
          by_cases hlen : alerts.length ≥ 5
          · rw [if_pos hlen] at hsome; exact absurd hsome (by simp)
          · rw [if_neg hlen] at hsome
            have hl := Option.some.inj hsome
            subst hl
            refine ⟨by omega, ?_, ?_⟩ <;> simp [List.length_append] <;> omega

/-- Witness for C10: a subscriber with 5 alerts is refused a sixth. -/
theorem setalert_limit_five_witness :
    setalertHandler 1 (List.replicate 5 alertBtcAbove) "BTC" .above
      (some 100) = none :=
  setalert_limit_five.1 1 (List.replicate 5 alertBtcAbove) "BTC" .above
    (some 100) (by decide)

/-- C6: provider fallback for balance resolution: a failing provider (thrown
after retries, or an unusable response) falls through to the next one, the
first usable response's data is returned, the resolution returns failure
only when every provider in the chain is exhausted, and the Ethereum
three-block chain and Solana RPC loop are instances of this iteration. -/
theorem providerChain_fallback :
    (∀ (r : ProviderResult) (rest : List ProviderResult),
       (∀ b, r ≠ ProviderResult.usable b) →
       resolveProviderChain (r :: rest) = resolveProviderChain rest) ∧
    (∀ (b : ℚ) (rest : List ProviderResult),
       resolveProviderChain (ProviderResult.usable b :: rest) = some b) ∧
    (∀ providers : List ProviderResult,
       resolveProviderChain providers = none ↔
         ∀ r ∈ providers, ∀ b, r ≠ ProviderResult.usable b) ∧
    (∀ e bc bl : ProviderResult,
       getEthereumBalanceWithRetry e bc bl = resolveProviderChain [e, bc, bl]) ∧
    (∀ r1 r2 r3 : ProviderResult,
       getSolanaBalanceWithRetry r1 r2 r3 = resolveProviderChain [r1, r2, r3]) := by
  refine ⟨?_, ?_, ?_, ?_, ?_⟩
  · intro r rest hr
    cases r with
    | usable b => exact absurd rfl (hr b)
    | throws => rfl
    | unusable => rfl
  · intro b rest; rfl
  · intro providers
    induction providers with
    | nil => simp [resolveProviderChain]
    | cons r rest ih =>
      cases r with
      | usable b =>
        simp only [resolveProviderChain]
        constructor
        · intro hcontra; exact absurd hcontra (by simp)
        · intro hall
          exact absurd rfl (hall (ProviderResult.usable b) (by simp) b)
      | throws =>
        simp only [resolveProviderChain]
        rw [ih]
        constructor
        · intro hall r hr b
          rcases List.mem_cons.mp hr with h | h
          · subst h; simp
          · exact hall r h b
        · intro hall r hr b
          exact hall r (List.mem_cons_of_mem _ hr) b
      | unusable =>
        simp only [resolveProviderChain]
        rw [ih]
        constructor
        · intro hall r hr b
          rcases List.mem_cons.mp hr with h | h
          · subst h; simp
          · exact hall r h b
        · intro hall r hr b
          exact hall r (List.mem_cons_of_mem _ hr) b
  · intro e bc bl
    cases e <;> cases bc <;> cases bl <;> rfl
  · intro r1 r2 r3; rfl

/-- Witness for C6: a primary that throws after exhausting retries falls
through, and the secondary's data is used. -/
theorem providerChain_fallback_witness :
    resolveProviderChain [ProviderResult.throws, ProviderResult.usable 5] =
      resolveProviderChain [ProviderResult.usable 5] ∧
    resolveProviderChain [ProviderResult.usable 5] = some 5 :=
  ⟨providerChain_fallback.1 ProviderResult.throws [ProviderResult.usable 5]
     (fun b => by simp),
   providerChain_fallback.2.1 5 []⟩

/-- Counterexample to C8 as stated: a transient transport failure also
removes the subscriber — the dispatch `catch` deletes the chat from
`subscribedChats` on any thrown send error, without distinguishing the
recipient-unreachable class. -/
theorem transient_failure_removes_subscriber :
    dispatchMessages [1] (fun _ => SendResult.transientFailure) [1] = [] := rfl

/-- C8 amended: a subscriber is removed from the active set by a delivery
failure of any class (unreachable or transient alike); it is retained
exactly when every send addressed to it succeeds. -/
theorem dispatch_removes_on_any_failure (chats : List ℤ)
    (send : ℤ → SendResult) (subscribed : List ℤ) (c : ℤ) :
    c ∈ dispatchMessages chats send subscribed ↔
      c ∈ subscribed ∧ (c ∈ chats → send c = SendResult.delivered) := by
  induction chats generalizing subscribed with
  | nil => simp [dispatchMessages]
  | cons x xs ih =>
    have step : dispatchMessages (x :: xs) send subscribed =
        dispatchMessages xs send
          (match send x with
           | .delivered => subscribed
           | _ => subscribed.filter (fun c2 => ¬ c2 = x)) := rfl
    rw [step]
    cases hsend : send x with
    | delivered =>
      simp only [hsend]
      rw [ih]
      by_cases hc : c = x
      · simp [hc, hsend, List.mem_cons]
      · simp [List.mem_cons, hc]
    | unreachable =>
      simp only [hsend]
      rw [ih]
      by_cases hc : c = x
      · simp [hc, hsend, List.mem_filter, List.mem_cons]
      · simp [List.mem_filter, List.mem_cons, hc]
    | transientFailure =>
      simp only [hsend]
      rw [ih]
      by_cases hc : c = x
      · simp [hc, hsend, List.mem_filter, List.mem_cons]
      · simp [List.mem_filter, List.mem_cons, hc]

/-- Witness for the amended C8: a subscriber whose send succeeds stays in
the active set. -/
theorem dispatch_removes_on_any_failure_witness :
    (1 : ℤ) ∈ dispatchMessages [1] (fun _ => SendResult.delivered) [1] :=
  (dispatch_removes_on_any_failure [1] (fun _ => SendResult.delivered) [1] 1).mpr
    ⟨by decide, fun _ => rfl⟩

/-- Sample subscriber with a high configured threshold of 25. -/
def sampleSettings25 : UserSettings :=
  { currency := .usd, trackedCryptos := ["ethereum"], updateInterval := .h1,
    emergencyAlerts := true, emergencyThreshold := 25 }

/-- The catalog entry for ethereum. -/
def ethEntry : CryptoCurrency := ⟨"ethereum", "ETH", "Ethereum"⟩

/-- For an enabled subscriber, evaluating a single quote is the per-asset
check. -/
theorem checkEmergencyForChat_single (chatId : ℤ) (s : UserSettings)
    (p : PriceData) (st : EmergencyState) (now : ℤ)
    (hen : s.emergencyAlerts = true) :
    checkEmergencyForChat chatId s [p] st now =
      ((checkEmergencyForAsset chatId s p st now).1.toList,
       (checkEmergencyForAsset chatId s p st now).2) := by
  rcases h : checkEmergencyForAsset chatId s p st now with ⟨o, st2⟩
  cases o <;> simp [checkEmergencyForChat, hen, h]

/-- When the quote's symbol resolves to a tracked catalog entry and the
condition chain selects a kind, the per-asset check reduces to the
deduplication decision on that kind's own key. -/
theorem checkEmergencyForAsset_found (chatId : ℤ) (s : UserSettings)
    (p : PriceData) (st : EmergencyState) (now : ℤ) (crypto : CryptoCurrency)
    (kind : EmergencyKind)
    (hfind : findCryptoBySymbol p.symbol = some crypto)
    (htrack : crypto.id ∈ s.trackedCryptos)
    (hcond : emergencyCondition s.emergencyThreshold (changeFor s p) = some kind) :
    checkEmergencyForAsset chatId s p st now =
      (match EmergencyState.lookup st ⟨chatId, crypto.id, kind⟩ with
       | some lastAlert =>
         if lastAlert ≠ 0 ∧ now - lastAlert < 3600000 then (none, st)
         else (some ⟨chatId, crypto.id, kind, changeFor s p, priceFor s p⟩,
               EmergencyState.set st ⟨chatId, crypto.id, kind⟩ now)
       | none =>
         (some ⟨chatId, crypto.id, kind, changeFor s p, priceFor s p⟩,
          EmergencyState.set st ⟨chatId, crypto.id, kind⟩ now)) := by
  simp only [checkEmergencyForAsset, hfind, htrack, if_pos, hcond]

/-- Counterexample to C1 as stated: with threshold 10 and a −30% 24h change
both the Crash predicate (−30 ≤ −10) and the Extreme-volatility predicate
(|−30| ≥ 20) hold, yet the evaluation of this single quote emits only the
Crash intent — the source's `else if` chain never checks the remaining
conditions, so a higher-priority match does suppress the others. -/
theorem overlapping_conditions_emit_single_intent :
    ((-30 : ℚ) ≤ -sampleSettings.emergencyThreshold) ∧
    (|(-30 : ℚ)| ≥ 20) ∧
    (checkEmergencyForChat 1 sampleSettings [quoteEthDown30] [] 1000).1 =
      [⟨1, "ethereum", .crash, -30, 2000⟩] := by
  refine ⟨by norm_num [sampleSettings], by norm_num, ?_⟩
  decide

/-- C1 amended: in one evaluation of one quote for one subscriber at most
one condition fires — the first matching one in the order Crash, Pump,
Extreme volatility — and the emitted intent is deduplicated by its own
(subscriber, asset, kind) key: an entry for a different kind does not
suppress it. -/
theorem emergency_first_match_only (t c : ℚ) (chatId : ℤ) (s : UserSettings)
    (p : PriceData) (st : EmergencyState) (now : ℤ) (crypto : CryptoCurrency)
    (kind : EmergencyKind) :
    (c ≤ -t → emergencyCondition t c = some .crash) ∧
    (¬ c ≤ -t → c ≥ t * (3 / 2) → emergencyCondition t c = some .pump) ∧
    (¬ c ≤ -t → ¬ c ≥ t * (3 / 2) → |c| ≥ 20 →
      emergencyCondition t c = some .extremeVolatility) ∧
    (¬ c ≤ -t → ¬ c ≥ t * (3 / 2) → ¬ |c| ≥ 20 →
      emergencyCondition t c = none) ∧
    (findCryptoBySymbol p.symbol = some crypto →
     crypto.id ∈ s.trackedCryptos →
     emergencyCondition s.emergencyThreshold (changeFor s p) = some kind →
     EmergencyState.lookup st ⟨chatId, crypto.id, kind⟩ = none →
     checkEmergencyForAsset chatId s p st now =
       (some ⟨chatId, crypto.id, kind, changeFor s p, priceFor s p⟩,
        EmergencyState.set st ⟨chatId, crypto.id, kind⟩ now)) := by
  refine ⟨?_, ?_, ?_, ?_, ?_⟩
  · intro h1; simp [emergencyCondition, if_pos h1]
  · intro h1 h2; simp [emergencyCondition, if_neg h1, if_pos h2]
  · intro h1 h2 h3; simp [emergencyCondition, if_neg h1, if_neg h2, if_pos h3]
  · intro h1 h2 h3; simp [emergencyCondition, if_neg h1, if_neg h2, if_neg h3]
  · intro hfind htrack hcond hlook
    rw [checkEmergencyForAsset_found chatId s p st now crypto kind hfind
      htrack hcond, hlook]

/-- Witness for the amended C1: with threshold 10, a −30% change selects
Crash (the first match), and with threshold 25 a +22% change selects
Extreme volatility because neither earlier condition matches. -/
theorem emergency_first_match_only_witness :
    emergencyCondition 10 (-30) = some .crash ∧
    emergencyCondition 25 22 = some .extremeVolatility := by
  constructor
  · exact (emergency_first_match_only 10 (-30) 1 sampleSettings quoteEthDown30
      [] 1000 ethEntry .crash).1 (by norm_num)
  · exact (emergency_first_match_only 25 22 1 sampleSettings25 quoteEthUp22
      [] 1000 ethEntry .extremeVolatility).2.2.1 (by norm_num) (by norm_num)
      (by norm_num)

/-- Counterexample to C2 as stated: for a subscriber with emergency alerts
enabled, threshold 10 (below the change magnitude) and a tracked asset\'s
+22% 24h change — which satisfies the Extreme ceiling |22| ≥ 20 — the
evaluation emits a Pump intent, not an Extreme-volatility intent. -/
theorem extreme_claim_fails_for_low_threshold :
    (|(22 : ℚ)| ≥ 20) ∧
    sampleSettings.emergencyAlerts = true ∧
    "ethereum" ∈ sampleSettings.trackedCryptos ∧
    (checkEmergencyForChat 1 sampleSettings [quoteEthUp22] [] 1000).1 =
      [⟨1, "ethereum", .pump, 22, 2000⟩] := by
  refine ⟨by norm_num, rfl, by decide, ?_⟩
  have hcond : emergencyCondition sampleSettings.emergencyThreshold
      (changeFor sampleSettings quoteEthUp22) = some .pump := by
    norm_num [emergencyCondition, sampleSettings, changeFor, quoteEthUp22]
  rw [checkEmergencyForChat_single 1 sampleSettings quoteEthUp22 [] 1000 rfl,
    checkEmergencyForAsset_found 1 sampleSettings quoteEthUp22 [] 1000
      ethEntry .pump (by decide) (by decide) hcond]
  rfl

/-- C2 amended: a 24h change of magnitude ≥ 20 always produces some
emergency intent for an enabled subscriber on a fresh dedup state, but the
intent's kind is Extreme volatility only when neither the Crash nor the
Pump condition matches — in particular for configured thresholds above the
magnitude, such as 25; for lower thresholds a Crash or Pump intent is
emitted instead. -/
theorem extreme_change_always_alerts (chatId : ℤ) (s : UserSettings)
    (p : PriceData) (now : ℤ) (crypto : CryptoCurrency)
    (hen : s.emergencyAlerts = true)
    (hfind : findCryptoBySymbol p.symbol = some crypto)
    (htrack : crypto.id ∈ s.trackedCryptos)
    (hbig : |changeFor s p| ≥ 20) :
    ((checkEmergencyForChat chatId s [p] [] now).1 ≠ []) ∧
    (¬ changeFor s p ≤ -s.emergencyThreshold →
     ¬ changeFor s p ≥ s.emergencyThreshold * (3 / 2) →
     (checkEmergencyForChat chatId s [p] [] now).1 =
       [⟨chatId, crypto.id, .extremeVolatility, changeFor s p, priceFor s p⟩]) := by
  rcases hcond : emergencyCondition s.emergencyThreshold (changeFor s p)
    with _ | kind
  · exfalso
    unfold emergencyCondition at hcond
    by_cases h1 : changeFor s p ≤ -s.emergencyThreshold
    · rw [if_pos h1] at hcond; exact Option.noConfusion hcond
    · by_cases h2 : changeFor s p ≥ s.emergencyThreshold * (3 / 2)
      · rw [if_neg h1, if_pos h2] at hcond; exact Option.noConfusion hcond
      · rw [if_neg h1, if_neg h2, if_pos hbig] at hcond
        exact Option.noConfusion hcond
  · have hasset := checkEmergencyForAsset_found chatId s p [] now crypto kind
      hfind htrack hcond
    have hlook : EmergencyState.lookup [] ⟨chatId, crypto.id, kind⟩ = none := rfl
    rw [hlook] at hasset
    constructor
    · rw [checkEmergencyForChat_single chatId s p [] now hen, hasset]
      simp
    · intro h1 h2
      have hkind : kind = .extremeVolatility := by
        unfold emergencyCondition at hcond
        rw [if_neg h1, if_neg h2, if_pos hbig] at hcond
        exact (Option.some.inj hcond).symm
      rw [checkEmergencyForChat_single chatId s p [] now hen, hasset, hkind]
      rfl

/-- Witness for the amended C2: a +22% change with configured threshold 25
(above the magnitude) yields exactly one Extreme-volatility intent. -/
theorem extreme_change_always_alerts_witness :
    (checkEmergencyForChat 1 sampleSettings25 [quoteEthUp22] [] 1000).1 =
      [⟨1, "ethereum", .extremeVolatility, 22, 2000⟩] :=
  (extreme_change_always_alerts 1 sampleSettings25 quoteEthUp22 1000 ethEntry
    rfl (by decide) (by decide) (by decide)).2
    (by norm_num [sampleSettings25, changeFor, quoteEthUp22])
    (by norm_num [sampleSettings25, changeFor, quoteEthUp22])

/-- C4: for a subscriber with threshold 10 and a tracked asset at −12%:
the first evaluation emits a Crash intent and records the fire time `now`;
any evaluation of the same (subscriber, asset, Crash) key strictly within
1 hour (3600000 ms) of the recorded fire emits nothing and leaves the state
unchanged; an evaluation at or after the 1-hour mark emits a new Crash
intent. -/
theorem crash_dedup_window (now t2 t3 : ℤ) (hnow : 0 < now)
    (hwithin : t2 - now < 3600000) (hafter : t3 - now ≥ 3600000) :
    checkEmergencyForChat 1 sampleSettings [quoteEthDown12] [] now =
      ([⟨1, "ethereum", .crash, -12, 1700⟩],
       [(⟨1, "ethereum", .crash⟩, now)]) ∧
    (checkEmergencyForChat 1 sampleSettings [quoteEthDown12]
        [(⟨1, "ethereum", .crash⟩, now)] t2).1 = [] ∧
    (checkEmergencyForChat 1 sampleSettings [quoteEthDown12]
        [(⟨1, "ethereum", .crash⟩, now)] t3).1 =
      [⟨1, "ethereum", .crash, -12, 1700⟩] := by
  have hcond : emergencyCondition sampleSettings.emergencyThreshold
      (changeFor sampleSettings quoteEthDown12) = some .crash := by
    norm_num [emergencyCondition, sampleSettings, changeFor, quoteEthDown12]
  have hlook1 : EmergencyState.lookup ([] : EmergencyState)
      ⟨1, "ethereum", .crash⟩ = none := rfl
  have hlook2 : EmergencyState.lookup [(⟨1, "ethereum", .crash⟩, now)]
      ⟨1, "ethereum", .crash⟩ = some now := by
    simp [EmergencyState.lookup]
  refine ⟨?_, ?_, ?_⟩
  · rw [checkEmergencyForChat_single 1 sampleSettings quoteEthDown12 [] now rfl,
      checkEmergencyForAsset_found 1 sampleSettings quoteEthDown12 [] now
        ethEntry .crash (by decide) (by decide) hcond]
    simp only [show ethEntry.id = "ethereum" from rfl]
    rw [hlook1]
    rfl
  · rw [checkEmergencyForChat_single 1 sampleSettings quoteEthDown12
        [(⟨1, "ethereum", .crash⟩, now)] t2 rfl,
      checkEmergencyForAsset_found 1 sampleSettings quoteEthDown12
        [(⟨1, "ethereum", .crash⟩, now)] t2 ethEntry .crash (by decide)
        (by decide) hcond]
    simp only [show ethEntry.id = "ethereum" from rfl]
    rw [hlook2]
    have hcondif : now ≠ 0 ∧ t2 - now < 3600000 := ⟨by omega, hwithin⟩
    simp [hcondif]
  · rw [checkEmergencyForChat_single 1 sampleSettings quoteEthDown12
        [(⟨1, "ethereum", .crash⟩, now)] t3 rfl,
      checkEmergencyForAsset_found 1 sampleSettings quoteEthDown12
        [(⟨1, "ethereum", .crash⟩, now)] t3 ethEntry .crash (by decide)
        (by decide) hcond]
    simp only [show ethEntry.id = "ethereum" from rfl]
    rw [hlook2]
    have hcondif : ¬ (now ≠ 0 ∧ t3 - now < 3600000) := by omega
    simp [hcondif, changeFor, priceFor, sampleSettings, quoteEthDown12]

/-- Witness for C4 at fire time 1000, a repeat 1000 ms later (suppressed)
and a repeat exactly one hour later (fires again). -/
theorem crash_dedup_window_witness :
    checkEmergencyForChat 1 sampleSettings [quoteEthDown12] [] 1000 =
      ([⟨1, "ethereum", .crash, -12, 1700⟩],
       [(⟨1, "ethereum", .crash⟩, 1000)]) ∧
    (checkEmergencyForChat 1 sampleSettings [quoteEthDown12]
        [(⟨1, "ethereum", .crash⟩, 1000)] 2000).1 = [] ∧
    (checkEmergencyForChat 1 sampleSettings [quoteEthDown12]
        [(⟨1, "ethereum", .crash⟩, 1000)] 3601000).1 =
      [⟨1, "ethereum", .crash, -12, 1700⟩] :=
  crash_dedup_window 1000 2000 3601000 (by decide) (by decide) (by decide)

/-- Membership in a JS-Set insertion. -/
theorem mem_insertUnique (l : List String) (x y : String) :
    y ∈ insertUnique l x ↔ y ∈ l ∨ y = x := by
  unfold insertUnique
  by_cases h : x ∈ l
  · rw [if_pos h]
    constructor
    · exact Or.inl
    · rintro (hy | rfl)
      · exact hy
      · exact h
  · rw [if_neg h]
    simp [List.mem_append]

/-- JS-Set insertion keeps the list duplicate-free. -/
theorem nodup_insertUnique (l : List String) (x : String) (h : l.Nodup) :
    (insertUnique l x).Nodup := by
  unfold insertUnique
  by_cases hx : x ∈ l
  · rw [if_pos hx]; exact h
  · rw [if_neg hx, List.nodup_append]
    refine ⟨h, List.nodup_singleton x, ?_⟩
    intro a ha hax
    rw [List.mem_singleton] at hax
    subst hax
    exact hx ha

/-- Folding JS-Set insertions over a list of ids accumulates exactly the
union. -/
theorem mem_foldl_insertUnique (xs : List String) (acc : List String)
    (y : String) :
    y ∈ xs.foldl insertUnique acc ↔ y ∈ acc ∨ y ∈ xs := by
  induction xs generalizing acc with
  | nil => simp
  | cons x rest ih =>
    rw [List.foldl_cons, ih, mem_insertUnique]
    simp [List.mem_cons]
    tauto

/-- Folding JS-Set insertions preserves freedom from duplicates. -/
theorem nodup_foldl_insertUnique (xs : List String) (acc : List String)
    (h : acc.Nodup) : (xs.foldl insertUnique acc).Nodup := by
  induction xs generalizing acc with
  | nil => exact h
  | cons x rest ih => exact ih _ (nodup_insertUnique acc x h)

/-- The tracked-crypto half of the asset union: membership. -/
theorem mem_foldl_tracked (chats : List ℤ)
    (userSettings : List (ℤ × UserSettings)) (acc : List String) (y : String) :
    y ∈ chats.foldl
        (fun acc c => (getUserSettings userSettings c).trackedCryptos.foldl
          insertUnique acc) acc ↔
      y ∈ acc ∨ ∃ c ∈ chats, y ∈ (getUserSettings userSettings c).trackedCryptos := by
  induction chats generalizing acc with
  | nil => simp
  | cons c rest ih =>
    rw [List.foldl_cons, ih, mem_foldl_insertUnique]
    simp [List.mem_cons]
    tauto

/-- The tracked-crypto half preserves freedom from duplicates. -/
theorem nodup_foldl_tracked (chats : List ℤ)
    (userSettings : List (ℤ × UserSettings)) (acc : List String)
    (h : acc.Nodup) :
    (chats.foldl
      (fun acc c => (getUserSettings userSettings c).trackedCryptos.foldl
        insertUnique acc) acc).Nodup := by
  induction chats generalizing acc with
  | nil => exact h
  | cons c rest ih => exact ih _ (nodup_foldl_insertUnique _ acc h)

/-- The active-alert half of the asset union for one subscriber's alert
list: membership. -/
theorem mem_foldl_alertList (ua : List Alert) (acc : List String) (y : String) :
    y ∈ ua.foldl
        (fun acc a => if a.active then insertUnique acc a.cryptoId else acc)
        acc ↔
      y ∈ acc ∨ ∃ a ∈ ua, a.active ∧ a.cryptoId = y := by
  induction ua generalizing acc with
  | nil => simp
  | cons a rest ih =>
    rw [List.foldl_cons]
    cases ha : a.active with
    | false =>
      rw [if_neg (by simp [ha]), ih]
      constructor
      · rintro (hy | ⟨b, hb, hact, rfl⟩)
        · exact Or.inl hy
        · exact Or.inr ⟨b, List.mem_cons_of_mem a hb, hact, rfl⟩
      · rintro (hy | ⟨b, hb, hact, rfl⟩)
        · exact Or.inl hy
        · rcases List.mem_cons.mp hb with rfl | hb2
          · rw [ha] at hact; exact absurd hact (by simp)
          · exact Or.inr ⟨b, hb2, hact, rfl⟩
    | true =>
      rw [if_pos (by simp [ha]), ih, mem_insertUnique]
      constructor
      · rintro ((hy | rfl) | ⟨b, hb, hact, rfl⟩)
        · exact Or.inl hy
        · exact Or.inr ⟨a, List.mem_cons_self a rest, ha, rfl⟩
        · exact Or.inr ⟨b, List.mem_cons_of_mem a hb, hact, rfl⟩
      · rintro (hy | ⟨b, hb, hact, rfl⟩)
        · exact Or.inl (Or.inl hy)
        · rcases List.mem_cons.mp hb with rfl | hb2
          · exact Or.inl (Or.inr rfl)
          · exact Or.inr ⟨b, hb2, hact, rfl⟩

/-- The active-alert half for one subscriber preserves freedom from
duplicates. -/
theorem nodup_foldl_alertList (ua : List Alert) (acc : List String)
    (h : acc.Nodup) :
    (ua.foldl
      (fun acc a => if a.active then insertUnique acc a.cryptoId else acc)
      acc).Nodup := by
  induction ua generalizing acc with
  | nil => exact h
  | cons a rest ih =>
    rw [List.foldl_cons]
    cases ha : a.active with
    | false => rw [if_neg (by simp [ha])]; exact ih _ h
    | true => rw [if_pos (by simp [ha])]; exact ih _ (nodup_insertUnique acc _ h)

/-- The active-alert half of the asset union over the whole alert map:
membership. -/
theorem mem_foldl_alertMap (alerts : List (ℤ × List Alert))
    (acc : List String) (y : String) :
    y ∈ alerts.foldl
        (fun acc entry => entry.2.foldl
          (fun acc a => if a.active then insertUnique acc a.cryptoId else acc)
          acc) acc ↔
      y ∈ acc ∨ ∃ e ∈ alerts, ∃ a ∈ e.2, a.active ∧ a.cryptoId = y := by
  induction alerts generalizing acc with
  | nil => simp
  | cons e rest ih =>
    rw [List.foldl_cons, ih, mem_foldl_alertList]
    constructor
    · rintro ((hy | ⟨a, ha, hact, rfl⟩) | ⟨e2, he2, a, ha, hact, rfl⟩)
      · exact Or.inl hy
      · exact Or.inr ⟨e, List.mem_cons_self e rest, a, ha, hact, rfl⟩
      · exact Or.inr ⟨e2, List.mem_cons_of_mem e he2, a, ha, hact, rfl⟩
    · rintro (hy | ⟨e2, he2, a, ha, hact, rfl⟩)
      · exact Or.inl (Or.inl hy)
      · rcases List.mem_cons.mp he2 with rfl | he3
        · exact Or.inl (Or.inr ⟨a, ha, hact, rfl⟩)
        · exact Or.inr ⟨e2, he3, a, ha, hact, rfl⟩

/-- The active-alert half over the whole alert map preserves freedom from
duplicates. -/
theorem nodup_foldl_alertMap (alerts : List (ℤ × List Alert))
    (acc : List String) (h : acc.Nodup) :
    (alerts.foldl
      (fun acc entry => entry.2.foldl
        (fun acc a => if a.active then insertUnique acc a.cryptoId else acc)
        acc) acc).Nodup := by
  induction alerts generalizing acc with
  | nil => exact h
  | cons e rest ih => exact ih _ (nodup_foldl_alertList e.2 acc h)

/-- C5: on a cadence tick (i) the deduplicated asset list handed to the one
`getCryptoPrices` batch call contains an asset exactly when some subscriber
selected for this cadence tracks it or some active threshold alert (of any
subscriber) references it; (ii) that list names each distinct asset exactly
once no matter how many subscribers track it; (iii) each selected
subscriber's dispatched message holds only quotes whose resolved catalog id
is in that subscriber's tracked set. -/
theorem tick_fetch_union_nodup_personalized (subscribedChats : List ℤ)
    (userSettings : List (ℤ × UserSettings)) (alerts : List (ℤ × List Alert))
    (intervalType : UpdateInterval) (response : String → Option CoinData) :
    (∀ x : String,
       x ∈ computeAllTracked
          (computeTargetChats subscribedChats userSettings intervalType)
          userSettings alerts ↔
        (∃ c ∈ computeTargetChats subscribedChats userSettings intervalType,
           x ∈ (getUserSettings userSettings c).trackedCryptos) ∨
        (∃ e ∈ alerts, ∃ a ∈ e.2, a.active ∧ a.cryptoId = x)) ∧
    (computeAllTracked
      (computeTargetChats subscribedChats userSettings intervalType)
      userSettings alerts).Nodup ∧
    (∀ pr ∈ (processPriceUpdateFetch subscribedChats userSettings alerts
        intervalType response).2.2,
       ∀ p ∈ pr.2,
         ((findCryptoBySymbol p.symbol).map (fun c => c.id)).getD "" ∈
           (getUserSettings userSettings pr.1).trackedCryptos) := by
  refine ⟨?_, ?_, ?_⟩
  · intro x
    unfold computeAllTracked
    rw [mem_foldl_alertMap, mem_foldl_tracked]
    simp
  · unfold computeAllTracked
    exact nodup_foldl_alertMap alerts _
      (nodup_foldl_tracked _ userSettings [] List.nodup_nil)
  · intro pr hpr p hp
    unfold processPriceUpdateFetch at hpr
    simp only [List.mem_map] at hpr
    obtain ⟨c, hc, rfl⟩ := hpr
    unfold computeUserPricesData at hp
    rw [List.mem_filter] at hp
    simpa using hp.2

/-- Sample 15-minute subscriber tracking bitcoin and ethereum. -/
def settingsBtcEth15 : UserSettings :=
  { currency := .usd, trackedCryptos := ["bitcoin", "ethereum"],
    updateInterval := .min15, emergencyAlerts := true, emergencyThreshold := 10 }

/-- Sample 15-minute subscriber tracking ethereum and solana. -/
def settingsEthSol15 : UserSettings :=
  { currency := .usd, trackedCryptos := ["ethereum", "solana"],
    updateInterval := .min15, emergencyAlerts := true, emergencyThreshold := 10 }

/-- Sample settings map: two 15-minute subscribers with overlapping tracked
sets and one 1-hour subscriber. -/
def sampleUserSettingsMap : List (ℤ × UserSettings) :=
  [(1, settingsBtcEth15), (2, settingsEthSol15), (3, sampleSettings)]

/-- Witness for C5: on the spec's three-subscriber example the 15-minute
tick's fetch list is duplicate-free and contains solana because the second
selected subscriber tracks it. -/
theorem tick_fetch_union_nodup_personalized_witness :
    (computeAllTracked
      (computeTargetChats [1, 2, 3] sampleUserSettingsMap .min15)
      sampleUserSettingsMap []).Nodup ∧
    "solana" ∈ computeAllTracked
      (computeTargetChats [1, 2, 3] sampleUserSettingsMap .min15)
      sampleUserSettingsMap [] :=
  ⟨(tick_fetch_union_nodup_personalized [1, 2, 3] sampleUserSettingsMap []
      .min15 (fun _ => none)).2.1,
   ((tick_fetch_union_nodup_personalized [1, 2, 3] sampleUserSettingsMap []
      .min15 (fun _ => none)).1 "solana").mpr
     (Or.inl ⟨2, by decide, by decide⟩)⟩

/-- Counterexample to C7 as stated: `PriceService.makeRequestWithRetry`
does not retry a 500 server error — the first attempt's 5xx response is
rethrown at once with no backoff delay, even though the second attempt
would have succeeded. -/
theorem server_error_not_retried :
    makeRequestWithRetry
        (fun i => if i = 1 then .httpError 500 none else .ok (0 : ℕ)) =
      (.error (.httpError 500 none), []) ∧
    (fun i => if i = 1 then AttemptResult.httpError 500 none
              else AttemptResult.ok (0 : ℕ)) 2 = .ok 0 :=
  ⟨rfl, rfl⟩

/-- C7 amended: the two retry loops implement different halves of the
stated policy. `PriceService.makeRequestWithRetry` retries only HTTP 429
(delay = the retry-after hint when present, else `2^attempt` seconds, at
most 3 attempts) and fails immediately on any other error, 5xx and 430
included. `WalletService.rateLimitedRequest` retries 429/430/5xx with the
`2^attempt`-second backoff for at most 3 attempts but never consults a
retry-after hint, and fails immediately on any other 4xx. -/
theorem retry_policies_per_function (α : Type) (f : ℕ → AttemptResult α)
    (s hint : ℕ) (ra : Option ℕ) (v : α) :
    (f 1 = .httpError s ra → s ≠ 429 →
      makeRequestWithRetry f = (.error (.httpError s ra), [])) ∧
    (f 1 = .httpError 429 (some hint) → f 2 = .ok v →
      makeRequestWithRetry f = (.ok v, [hint * 1000])) ∧
    (f 1 = .httpError 429 none → f 2 = .ok v →
      makeRequestWithRetry f = (.ok v, [2000])) ∧
    (f 1 = .httpError 429 none → f 2 = .httpError 429 none →
     f 3 = .httpError 429 none →
      makeRequestWithRetry f = (.error (.httpError 429 none), [2000, 4000])) ∧
    (f 1 = .httpError s ra → 400 ≤ s → s < 500 → s ≠ 429 → s ≠ 430 →
      rateLimitedRequest f = (.error (.httpError s ra), [])) ∧
    (f 1 = .httpError s ra → (s = 429 ∨ s = 430 ∨ 500 ≤ s) → f 2 = .ok v →
      rateLimitedRequest f = (.ok v, [2000])) ∧
    (f 1 = .httpError 430 none → f 2 = .httpError 500 none →
     f 3 = .httpError 503 none →
      rateLimitedRequest f = (.error (.httpError 503 none), [2000, 4000])) := by
  refine ⟨?_, ?_, ?_, ?_, ?_, ?_, ?_⟩
  · intro h1 hs
    have hneg : ¬ (s = 429 ∧ 1 < 3) := fun hc => hs hc.1
    simp [makeRequestWithRetry, makeRequestWithRetryGo, h1, hneg, hs]
  · intro h1 h2
    simp [makeRequestWithRetry, makeRequestWithRetryGo, h1, h2]
  · intro h1 h2
    simp [makeRequestWithRetry, makeRequestWithRetryGo, h1, h2]
  · intro h1 h2 h3
    have hstop : ¬ ((429 : ℕ) = 429 ∧ 3 < 3) := by omega
    simp [makeRequestWithRetry, makeRequestWithRetryGo, h1, h2, h3, hstop]
  · intro h1 h400 h500 h429 h430
    have hneg : ¬ ((s = 429 ∨ s = 430 ∨ (s ≠ 0 ∧ 500 ≤ s)) ∧ 1 < 3) := by omega
    have hpos : 400 ≤ s ∧ s < 500 ∧ s ≠ 429 ∧ s ≠ 430 := ⟨h400, h500, h429, h430⟩
    simp [rateLimitedRequest, rateLimitedRequestGo, h1, hneg, hpos]
  · intro h1 hs h2
    have hpos : (s = 429 ∨ s = 430 ∨ (s ≠ 0 ∧ 500 ≤ s)) ∧ 1 < 3 := by omega
    simp [rateLimitedRequest, rateLimitedRequestGo, h1, hpos, h2]
  · intro h1 h2 h3
    have hp1 : ((430 : ℕ) = 429 ∨ (430 : ℕ) = 430 ∨
        ((430 : ℕ) ≠ 0 ∧ 500 ≤ 430)) ∧ 1 < 3 := by omega
    have hp2 : ((500 : ℕ) = 429 ∨ (500 : ℕ) = 430 ∨
        ((500 : ℕ) ≠ 0 ∧ 500 ≤ 500)) ∧ 2 < 3 := by omega
    have hp3 : ¬ (((503 : ℕ) = 429 ∨ (503 : ℕ) = 430 ∨
        ((503 : ℕ) ≠ 0 ∧ 500 ≤ 503)) ∧ 3 < 3) := by omega
    have hp4 : ¬ (400 ≤ 503 ∧ 503 < 500 ∧ (503 : ℕ) ≠ 429 ∧ (503 : ℕ) ≠ 430) := by
      omega
    simp [rateLimitedRequest, rateLimitedRequestGo, h1, h2, h3, hp1, hp2, hp3, hp4]

/-- Witness for the amended C7: a 404 fails `makeRequestWithRetry` at once,
while a 429 with a retry-after hint of 7 seconds is retried after exactly
7000 ms; a 429 seen by `rateLimitedRequest` is retried after the 2000 ms
backoff with the hint ignored. -/
theorem retry_policies_per_function_witness :
    makeRequestWithRetry
        (fun i => if i = 1 then .httpError 404 none else .ok (0 : ℕ)) =
      (.error (.httpError 404 none), []) ∧
    makeRequestWithRetry
        (fun i => if i = 1 then .httpError 429 (some 7) else .ok (0 : ℕ)) =
      (.ok 0, [7000]) ∧
    rateLimitedRequest
        (fun i => if i = 1 then .httpError 429 (some 7) else .ok (0 : ℕ)) =
      (.ok 0, [2000]) :=
  ⟨(retry_policies_per_function ℕ
      (fun i => if i = 1 then .httpError 404 none else .ok 0) 404 7 none 0).1
      rfl (by omega),
   (retry_policies_per_function ℕ
      (fun i => if i = 1 then .httpError 429 (some 7) else .ok 0) 404 7
      (some 7) 0).2.1 rfl rfl,
   (retry_policies_per_function ℕ
      (fun i => if i = 1 then .httpError 429 (some 7) else .ok 0) 429 7
      (some 7) 0).2.2.2.2.2.1 rfl (by omega) rfl⟩

end Barrett
